import Mathlib

/-!
Verification of the POI endpoints of `app/api/poi/views.py`.

The two request handlers, `get_aggregated_pois` and `get_pois_details`, are
shallowly embedded below.  Tag dictionaries are association lists from
string keys to string values (OSM tag values are strings); Python's truthy
`or` chain and `if not x` tests on optional strings are modelled explicitly
(`None` and the empty string are falsy).  Python dicts are association
lists with insert-or-overwrite that preserves the position of an existing
key.  The external Overpass call is abstracted as a function from the query
string to the returned element list, so that the handlers stay pure.
-/

namespace S7

/-- The `Operator` enum of `views.py` (seven declared comparison operators). -/
inductive Operator where
  | EQ | NEQ | REGEX | LT | GT | LTE | GTE
  deriving DecidableEq, Repr

/-- `FilterCondition`: key, optional operator (defaulting to `=` in the
pydantic model), optional value.  Values are rendered to strings when
interpolated into the query, so they are kept as strings here. -/
structure FilterCondition where
  key : String
  operator : Option Operator := some Operator.EQ
  value : Option String := none
  deriving DecidableEq, Repr

/-- The clause the loop body of `get_aggregated_pois` appends for one
condition: an equality clause when `cond.value is not None`, a
tag-presence clause otherwise.  The operator field is never read. -/
def clauseFor (polyStr : String) (cond : FilterCondition) : String :=
  match cond.value with
  | some v =>
      "node[\"" ++ cond.key ++ "\"=\"" ++ v ++ "\"](poly:\"" ++ polyStr ++ "\");"
  | none =>
      "node[\"" ++ cond.key ++ "\"](poly:\"" ++ polyStr ++ "\");"

/-- The `query_parts` list built by the `for cond in filter.overpass_filters`
loop: successive appends to an accumulator list. -/
def buildParts (polyStr : String) (conds : List FilterCondition) : List String :=
  conds.foldl (fun acc cond => acc ++ [clauseFor polyStr cond]) []

/-- `query_str` of `get_aggregated_pois`: the parts joined by newlines inside
the fixed `[out:json]; ( ... ); out body;` template. -/
def buildQueryStr (polyStr : String) (conds : List FilterCondition) : String :=
  "[out:json];\n(\n" ++ String.intercalate "\n" (buildParts polyStr conds) ++ "\n);\nout body;"

/-- Per-condition clause as the spec words it: "if `value` is present, emit an
equality clause scoping a node search by tag key/value within the polygon;
if absent, emit a tag-presence clause".  Used to compare the generated
query against the spec's clause-per-condition description. -/
def specClause (polyStr : String) (cond : FilterCondition) : String :=
  match cond.value with
  | some v =>
      "node[\"" ++ cond.key ++ "\"=\"" ++ v ++ "\"](poly:\"" ++ polyStr ++ "\");"
  | none =>
      "node[\"" ++ cond.key ++ "\"](poly:\"" ++ polyStr ++ "\");"

/-- Tag dictionaries: ordered association lists with string keys. -/
abbrev Tags := List (String × String)

/-- `dict.get(k)` / `k in dict` on an association list: first binding wins. -/
def alookup {α β : Type} [DecidableEq α] : List (α × β) → α → Option β
  | [], _ => none
  | (k, v) :: rest, a => if k = a then some v else alookup rest a

/-- `tags.get(key)` on a tag dictionary. -/
def tagGet (tags : Tags) (key : String) : Option String :=
  alookup tags key

/-- Python's `a or b` on optional strings: `None` and `""` are falsy, so the
left operand wins exactly when it is a present, non-empty string. -/
def orTruthy (a b : Option String) : Option String :=
  match a with
  | none => b
  | some s => if s = "" then b else some s

/-- `node.tags.get("place") or node.tags.get("historic") or
node.tags.get("natural") or node.tags.get("tourism")` — the type-resolution
chain of `get_aggregated_pois`. -/
def poiType (tags : Tags) : Option String :=
  orTruthy (tagGet tags "place")
    (orTruthy (tagGet tags "historic")
      (orTruthy (tagGet tags "natural") (tagGet tags "tourism")))

/-- Python truthiness of the optional string `poi_type`: `if not poi_type:
continue` keeps the element exactly when this is `true`. -/
def truthy : Option String → Bool
  | none => false
  | some s => if s = "" then false else true

/-- An element of the collected Overpass result: id, tag dictionary and the
optional coordinate attributes (`.lat`/`.lon` may be absent). -/
structure Element where
  id : Int
  tags : Tags
  lat : Option Rat := none
  lon : Option Rat := none
  deriving DecidableEq

/-- The summary `POI` model (id, name, type). -/
structure POI where
  id : Int
  name : String
  type : String
  deriving DecidableEq, Repr

/-- `aggregations[poi_type] = aggregations.get(poi_type, 0) + 1` on a dict
modelled as an association list: increment in place, else append with 1. -/
def bump : List (String × Nat) → String → List (String × Nat)
  | [], t => [(t, 1)]
  | (k, n) :: rest, t => if k = t then (k, n + 1) :: rest else (k, n) :: bump rest t

/-- The accumulation loop of `get_aggregated_pois`: walk the elements, skip
those whose resolved type is falsy, append a `POI` and bump the count
otherwise. -/
def projectAux : List Element → List POI → List (String × Nat) → List POI × List (String × Nat)
  | [], pois, aggs => (pois, aggs)
  | e :: rest, pois, aggs =>
    match poiType e.tags with
    | none => projectAux rest pois aggs
    | some t =>
      if t = "" then projectAux rest pois aggs
      else
        projectAux rest
          (pois ++ [{ id := e.id, name := (tagGet e.tags "name").getD "Unknown", type := t }])
          (bump aggs t)

/-- The aggregate-mode result projector: the `pois` list and `aggregations`
dict returned by `get_aggregated_pois` for a collected element list. -/
def projectPois (elems : List Element) : List POI × List (String × Nat) :=
  projectAux elems [] []

/-- Sum of the counts of an aggregation dict. -/
def sumCounts (aggs : List (String × Nat)) : Nat :=
  (aggs.map (fun p => p.2)).sum

/-- Claim-side predicate: the element has at least one of the four priority
tags (key present, value arbitrary). -/
def hasPriorityTag (e : Element) : Bool :=
  (tagGet e.tags "place").isSome || (tagGet e.tags "historic").isSome ||
    (tagGet e.tags "natural").isSome || (tagGet e.tags "tourism").isSome

/-- The element has at least one of the four priority tags with a non-empty
value (the condition under which the code keeps it). -/
def hasTruthyPriorityTag (e : Element) : Bool :=
  truthy (tagGet e.tags "place") || truthy (tagGet e.tags "historic") ||
    truthy (tagGet e.tags "natural") || truthy (tagGet e.tags "tourism")

/-- The `Coordinates` response model. -/
structure Coordinates where
  latitude : Rat
  longitude : Rat
  deriving DecidableEq

/-- The `PoiDetail` response model. -/
structure PoiDetail where
  id : Int
  name : String
  tags : Tags
  details : List (String × String)
  coordinates : Option Coordinates := none
  deriving DecidableEq

/-- An `HTTPException` raised by a handler: status code and detail string. -/
structure HttpError where
  status : Nat
  detail : String
  deriving DecidableEq

/-- One conditional detail entry: `if key in node.tags:
details[label] = node.tags[key]`, as the dict fragment it appends. -/
def optEntry (tags : Tags) (key label : String) : List (String × String) :=
  match tagGet tags key with
  | some v => [(label, v)]
  | none => []

/-- The clause of the translator as a function of key and optional value
alone, witnessing that the operator field plays no role. -/
def clauseKV (polyStr : String) (kv : String × Option String) : String :=
  match kv.2 with
  | some v =>
      "node[\"" ++ kv.1 ++ "\"=\"" ++ v ++ "\"](poly:\"" ++ polyStr ++ "\");"
  | none =>
      "node[\"" ++ kv.1 ++ "\"](poly:\"" ++ polyStr ++ "\");"

/-- The summary `POI` the loop appends for a kept element (its type being the
resolved priority tag). -/
def mkPOIel (e : Element) : POI :=
  { id := e.id
    name := (tagGet e.tags "name").getD "Unknown"
    type := (poiType e.tags).getD "" }

/-- The address block of `get_pois_details`: the full address under
`"Полный адрес"` when `addr:full` is present, otherwise the joined
street/housenumber parts under `"Адрес"` when at least one is present. -/
def addrEntries (tags : Tags) : List (String × String) :=
  match tagGet tags "addr:full" with
  | some v => [("Полный адрес", v)]
  | none =>
    let addrParts :=
      (match tagGet tags "addr:street" with
       | some s => [s]
       | none => []) ++
      (match tagGet tags "addr:housenumber" with
       | some s => [s]
       | none => [])
    if addrParts = [] then [] else [("Адрес", String.intercalate " " addrParts)]

/-- The curated `details` dict built for one element, in insertion order:
description, address block, website, phone, opening hours. -/
def detailsOf (tags : Tags) : List (String × String) :=
  optEntry tags "description" "Описание" ++
    (addrEntries tags ++
      (optEntry tags "website" "Веб-сайт" ++
        (optEntry tags "phone" "Телефон" ++ optEntry tags "opening_hours" "Часы работы")))

/-- The `PoiDetail` constructed for one element: name defaults to
`"Unknown"`, and coordinates are set only when both `.lat` and `.lon` are
present on the element. -/
def mkPoiDetail (e : Element) : PoiDetail :=
  { id := e.id
    name := (tagGet e.tags "name").getD "Unknown"
    tags := e.tags
    details := detailsOf e.tags
    coordinates :=
      match e.lat, e.lon with
      | some la, some lo => some ⟨la, lo⟩
      | _, _ => none }

/-- `ids_str`: one `node(id);` existence clause per requested id, joined by
single spaces. -/
def detailsIdsStr (poiIds : List Int) : String :=
  String.intercalate " " (poiIds.map (fun i => "node(" ++ toString i ++ ");"))

/-- The `query_str` f-string of `get_pois_details` (with its literal
indentation). -/
def detailsQueryStr (poiIds : List Int) : String :=
  "\n    [out:json];\n    (\n      " ++ detailsIdsStr poiIds ++ "\n    );\n    out body;\n    "

/-- `dict[k] = v` on a Python dict modelled as an ordered association list:
overwrite in place when the key exists, append otherwise. -/
def dinsert {α β : Type} [DecidableEq α] : List (α × β) → α → β → List (α × β)
  | [], k, v => [(k, v)]
  | (k0, v0) :: rest, k, v =>
    if k0 = k then (k, v) :: rest else (k0, v0) :: dinsert rest k v

/-- The result-building loop of `get_pois_details`:
`result[node.id] = poi_detail` over all collected elements. -/
def buildResult (elems : List Element) : List (Int × PoiDetail) :=
  elems.foldl (fun m e => dinsert m e.id (mkPoiDetail e)) []

/-- The last element of the list whose id is `k`, if any. -/
def lastWithId (elems : List Element) (k : Int) : Option Element :=
  match elems with
  | [] => none
  | e :: rest =>
    match lastWithId rest k with
    | some r => some r
    | none => if e.id = k then some e else none

/-- The `get_pois_details` handler with the external Overpass round-trip
abstracted as `fetch`: reject an empty id list with 400 before the query is
built, run the query, reject an empty result with 404, otherwise return the
id-keyed mapping of details. -/
def getPoisDetails (poiIds : List Int) (fetch : String → List Element) :
    Except HttpError (List (Int × PoiDetail)) :=
  if poiIds = [] then Except.error ⟨400, "No POI IDs provided"⟩
  else
    let elems := fetch (detailsQueryStr poiIds)
    if elems = [] then Except.error ⟨404, "POIs not found"⟩
    else Except.ok (buildResult elems)

/-! Helper lemmas about the embedded operations. -/

lemma buildParts_eq_map (p : String) (conds : List FilterCondition) :
    buildParts p conds = conds.map (clauseFor p) := by
  have h : ∀ acc, conds.foldl (fun acc cond => acc ++ [clauseFor p cond]) acc =
      acc ++ conds.map (clauseFor p) := by
    induction conds with
    | nil => intro acc; simp
    | cons c rest ih => intro acc; simp [List.foldl_cons, ih]
  simpa [buildParts] using h []

lemma clauseFor_eq_kv (p : String) (c : FilterCondition) :
    clauseFor p c = clauseKV p (c.key, c.value) := by
  cases hv : c.value <;> simp [clauseFor, clauseKV, hv]

lemma specClause_eq_clauseFor (p : String) : specClause p = clauseFor p := by
  funext c
  cases hv : c.value <;> simp [specClause, clauseFor, hv]

lemma map_clauseFor_eq (p : String) (l : List FilterCondition) :
    l.map (clauseFor p) = (l.map (fun c => (c.key, c.value))).map (clauseKV p) := by
  induction l with
  | nil => rfl
  | cons c rest ih => simp [List.map_cons, clauseFor_eq_kv, ih]

lemma sumCounts_bump (aggs : List (String × Nat)) (t : String) :
    sumCounts (bump aggs t) = sumCounts aggs + 1 := by
  induction aggs with
  | nil => simp [bump, sumCounts]
  | cons p rest ih =>
    obtain ⟨k, n⟩ := p
    by_cases h : k = t
    · simp [bump, h, sumCounts]
      omega
    · simp [bump, h, sumCounts] at ih ⊢
      omega

lemma truthy_orTruthy (a b : Option String) :
    truthy (orTruthy a b) = (truthy a || truthy b) := by
  cases a with
  | none => simp [orTruthy, truthy]
  | some s =>
    by_cases h : s = ""
    · simp [orTruthy, truthy, h]
    · simp [orTruthy, truthy, h]

lemma truthy_poiType (e : Element) :
    truthy (poiType e.tags) = hasTruthyPriorityTag e := by
  simp [poiType, truthy_orTruthy, hasTruthyPriorityTag, Bool.or_assoc]

lemma projectAux_pois (elems : List Element) : ∀ pois aggs,
    (projectAux elems pois aggs).1 =
      pois ++ (elems.filter (fun e => truthy (poiType e.tags))).map mkPOIel := by
  induction elems with
  | nil => intro pois aggs; simp [projectAux]
  | cons e rest ih =>
    intro pois aggs
    cases hpt : poiType e.tags with
    | none => simp [projectAux, hpt, ih, List.filter_cons, truthy]
    | some t =>
      by_cases ht : t = ""
      · subst ht
        simp [projectAux, hpt, ih, List.filter_cons, truthy]
      · simp [projectAux, hpt, ht, ih, List.filter_cons, truthy, mkPOIel]

lemma projectAux_sum (elems : List Element) : ∀ pois aggs,
    sumCounts (projectAux elems pois aggs).2 =
      sumCounts aggs + (elems.filter (fun e => truthy (poiType e.tags))).length := by
  induction elems with
  | nil => intro pois aggs; simp [projectAux]
  | cons e rest ih =>
    intro pois aggs
    cases hpt : poiType e.tags with
    | none => simp [projectAux, hpt, ih, List.filter_cons, truthy]
    | some t =>
      by_cases ht : t = ""
      · subst ht
        simp [projectAux, hpt, ih, List.filter_cons, truthy]
      · simp [projectAux, hpt, ht, ih, List.filter_cons, truthy, sumCounts_bump]
        omega

lemma alookup_append_some {α β : Type} [DecidableEq α] (l1 l2 : List (α × β)) (a : α)
    (v : β) (h : alookup l1 a = some v) : alookup (l1 ++ l2) a = some v := by
  induction l1 with
  | nil => simp [alookup] at h
  | cons p rest ih =>
    obtain ⟨k, w⟩ := p
    by_cases hk : k = a
    · simp [alookup, hk] at h ⊢
      exact h
    · simp [alookup, hk] at h ⊢
      exact ih h

lemma alookup_append_none {α β : Type} [DecidableEq α] (l1 l2 : List (α × β)) (a : α)
    (h : alookup l1 a = none) : alookup (l1 ++ l2) a = alookup l2 a := by
  induction l1 with
  | nil => simp [alookup]
  | cons p rest ih =>
    obtain ⟨k, w⟩ := p
    by_cases hk : k = a
    · simp [alookup, hk] at h
    · simp [alookup, hk] at h ⊢
      exact ih h

lemma alookup_optEntry_ne (tags : Tags) (key label a : String) (h : label ≠ a) :
    alookup (optEntry tags key label) a = none := by
  cases hv : tagGet tags key <;> simp [optEntry, hv, alookup, h]

lemma alookup_detailsOf_addrblock (tags : Tags) (a : String)
    (h1 : ("Описание" : String) ≠ a) (h2 : ("Веб-сайт" : String) ≠ a)
    (h3 : ("Телефон" : String) ≠ a) (h4 : ("Часы работы" : String) ≠ a) :
    alookup (detailsOf tags) a = alookup (addrEntries tags) a := by
  unfold detailsOf
  rw [alookup_append_none _ _ _ (alookup_optEntry_ne tags "description" "Описание" a h1)]
  cases hv : alookup (addrEntries tags) a with
  | some v => exact alookup_append_some _ _ _ _ hv
  | none =>
    rw [alookup_append_none _ _ _ hv,
      alookup_append_none _ _ _ (alookup_optEntry_ne tags "website" "Веб-сайт" a h2),
      alookup_append_none _ _ _ (alookup_optEntry_ne tags "phone" "Телефон" a h3)]
    exact alookup_optEntry_ne tags "opening_hours" "Часы работы" a h4

lemma alookup_dinsert {α β : Type} [DecidableEq α] (m : List (α × β)) (k : α) (v : β)
    (a : α) : alookup (dinsert m k v) a = if k = a then some v else alookup m a := by
  induction m with
  | nil => simp [dinsert, alookup]
  | cons p rest ih =>
    obtain ⟨k0, v0⟩ := p
    by_cases h0 : k0 = k
    · subst h0
      by_cases ha : k0 = a <;> simp [dinsert, alookup, ha]
    · by_cases ha : k0 = a <;> by_cases hk : k = a <;>
        simp_all [dinsert, alookup]

lemma alookup_buildResult_aux (elems : List Element) :
    ∀ (m : List (Int × PoiDetail)) (k : Int),
      alookup (elems.foldl (fun m2 e => dinsert m2 e.id (mkPoiDetail e)) m) k =
        match lastWithId elems k with
        | some e => some (mkPoiDetail e)
        | none => alookup m k := by
  induction elems with
  | nil => intro m k; simp [lastWithId]
  | cons e rest ih =>
    intro m k
    rw [List.foldl_cons, ih]
    cases hr : lastWithId rest k with
    | some r => simp [lastWithId, hr]
    | none =>
      simp only [lastWithId, hr]
      rw [alookup_dinsert]
      by_cases hk : e.id = k <;> simp [hk]

lemma alookup_buildResult (elems : List Element) (k : Int) :
    alookup (buildResult elems) k = (lastWithId elems k).map mkPoiDetail := by
  rw [buildResult, alookup_buildResult_aux]
  cases lastWithId elems k <;> simp [alookup]

lemma lastWithId_id (elems : List Element) (k : Int) :
    ∀ e, lastWithId elems k = some e → e.id = k := by
  induction elems with
  | nil => intro e h; simp [lastWithId] at h
  | cons e0 rest ih =>
    intro e h
    simp only [lastWithId] at h
    cases hr : lastWithId rest k with
    | some r =>
      rw [hr] at h
      injection h with h2
      subst h2
      exact ih r hr
    | none =>
      rw [hr] at h
      by_cases hk : e0.id = k
      · rw [if_pos hk] at h
        injection h with h2
        subst h2
        exact hk
      · rw [if_neg hk] at h
        exact Option.noConfusion h

/-! Claim theorems. -/

/-- C1: for every filter list containing only equality and tag-presence
conditions, the generated query string wraps exactly one clause per
condition — an equality clause when the value is present, a tag-presence
clause when it is absent — joined by newlines inside the fixed
`[out:json]; ( ... ); out body;` disjunctive template. -/
theorem overpass_query_one_clause_per_cond (polyStr : String)
    (conds : List FilterCondition)
    (h : ∀ c ∈ conds, c.operator = some Operator.EQ ∨ c.value = none) :
    buildQueryStr polyStr conds =
      "[out:json];\n(\n" ++
        String.intercalate "\n" (conds.map (specClause polyStr)) ++ "\n);\nout body;" ∧
    (conds.map (specClause polyStr)).length = conds.length := by
  constructor
  · rw [buildQueryStr, buildParts_eq_map, specClause_eq_clauseFor]
  · simp

/-- Witness for C1 at a two-condition filter list (one equality, one
tag-presence condition). -/
theorem overpass_query_one_clause_per_cond_witness :
    buildQueryStr "P"
        [⟨"place", some Operator.EQ, some "city"⟩, ⟨"historic", some Operator.EQ, none⟩] =
      "[out:json];\n(\n" ++
        String.intercalate "\n"
          (([⟨"place", some Operator.EQ, some "city"⟩,
             ⟨"historic", some Operator.EQ, none⟩] : List FilterCondition).map
            (specClause "P")) ++ "\n);\nout body;" ∧
    (([⟨"place", some Operator.EQ, some "city"⟩,
       ⟨"historic", some Operator.EQ, none⟩] : List FilterCondition).map
        (specClause "P")).length =
      ([⟨"place", some Operator.EQ, some "city"⟩,
        ⟨"historic", some Operator.EQ, none⟩] : List FilterCondition).length :=
  overpass_query_one_clause_per_cond "P" _ (by decide)

/-- C2 counterexample: an element whose only priority tag is `place` with the
empty-string value has at least one of the four tags, yet contributes
nothing to the aggregation counts, so the counts do not sum to the number
of elements having at least one of the four tags. -/
theorem agg_counts_sum_cex :
    ¬ (sumCounts (projectPois [⟨1, [("place", "")], none, none⟩]).2 =
        (List.filter hasPriorityTag [⟨1, [("place", "")], none, none⟩]).length) := by
  decide

/-- C2 (amended): the aggregation counts sum to the number of elements having
at least one of the four priority tags with a non-empty value, and the
pois list consists of exactly the projections of those elements — so an
element lacking all four tags (or carrying them only with empty values)
appears in neither output. -/
theorem agg_counts_sum_amended (elems : List Element) :
    sumCounts (projectPois elems).2 = (elems.filter hasTruthyPriorityTag).length ∧
    (projectPois elems).1 = (elems.filter hasTruthyPriorityTag).map mkPOIel := by
  have hfilter : elems.filter (fun e => truthy (poiType e.tags)) =
      elems.filter hasTruthyPriorityTag := by
    apply List.filter_congr
    intro e _
    exact truthy_poiType e
  constructor
  · have hs := projectAux_sum elems [] []
    simpa [projectPois, sumCounts, hfilter] using hs
  · have hp := projectAux_pois elems [] []
    simpa [projectPois, hfilter] using hp

/-- C3 counterexample: an element carrying both a `place` tag (with the empty
value) and a `natural` tag resolves its type to the `natural` value, not
to the `place` value. -/
theorem place_priority_cex :
    tagGet [("place", ""), ("natural", "water")] "place" = some "" ∧
    (tagGet [("place", ""), ("natural", "water")] "natural").isSome = true ∧
    poiType [("place", ""), ("natural", "water")] ≠ some "" := by
  decide

/-- C3 (amended): the type is resolved by the priority order place, historic,
natural, tourism with empty-valued tags skipped; in particular any element
whose `place` tag has a non-empty value — whatever other tags it carries —
resolves its type to the `place` value. -/
theorem place_priority_amended (tags : Tags) (v : String)
    (h1 : tagGet tags "place" = some v) (h2 : v ≠ "") :
    poiType tags = some v := by
  simp [poiType, orTruthy, h1, h2]

/-- Witness for the amended C3: a `place=city` tag wins over a
`natural=water` tag. -/
theorem place_priority_amended_witness :
    poiType [("place", "city"), ("natural", "water")] = some "city" :=
  place_priority_amended [("place", "city"), ("natural", "water")] "city" rfl (by decide)

/-- C4: the translator never reads the operator field — two filter lists with
identical keys and values but arbitrary operators yield the identical
query string, and a condition with a non-equality operator and a present
value still contributes its equality clause. -/
theorem operator_ignored_by_translator (polyStr : String)
    (conds1 conds2 : List FilterCondition)
    (h : conds1.map (fun c => (c.key, c.value)) = conds2.map (fun c => (c.key, c.value))) :
    buildQueryStr polyStr conds1 = buildQueryStr polyStr conds2 ∧
    ∀ c : FilterCondition, ∀ v : String, c.value = some v →
      clauseFor polyStr c =
        "node[\"" ++ c.key ++ "\"=\"" ++ v ++ "\"](poly:\"" ++ polyStr ++ "\");" := by
  constructor
  · rw [buildQueryStr, buildQueryStr, buildParts_eq_map, buildParts_eq_map,
      map_clauseFor_eq, map_clauseFor_eq, h]
  · intro c v hv
    simp [clauseFor, hv]

/-- Witness for C4: changing the operator of a condition from `=` to `<`
leaves the query unchanged, and the `<` condition still contributes an
equality clause. -/
theorem operator_ignored_by_translator_witness :
    buildQueryStr "P" [(⟨"a", some Operator.EQ, some "1"⟩ : FilterCondition)] =
      buildQueryStr "P" [(⟨"a", some Operator.LT, some "1"⟩ : FilterCondition)] ∧
    clauseFor "P" ⟨"a", some Operator.LT, some "1"⟩ =
      "node[\"a\"=\"1\"](poly:\"P\");" := by
  have h := operator_ignored_by_translator "P"
    [(⟨"a", some Operator.EQ, some "1"⟩ : FilterCondition)]
    [(⟨"a", some Operator.LT, some "1"⟩ : FilterCondition)] rfl
  exact ⟨h.1, h.2 _ "1" rfl⟩

/-- C5: the coordinates of a projected `PoiDetail` are populated if and only
if both `.lat` and `.lon` are present on the element; in particular an
element missing its longitude gets `coordinates = none` even when its
latitude is present. -/
theorem coords_require_lat_lon (e : Element) (h : e.lon = none) :
    (mkPoiDetail e).coordinates = none ∧
    ∀ e2 : Element, ((mkPoiDetail e2).coordinates).isSome = (e2.lat.isSome && e2.lon.isSome) := by
  constructor
  · cases hl : e.lat <;> simp [mkPoiDetail, h, hl]
  · intro e2
    cases hl : e2.lat <;> cases hn : e2.lon <;> simp [mkPoiDetail, hl, hn]

/-- Witness for C5: an element with a latitude but no longitude yields no
coordinates. -/
theorem coords_require_lat_lon_witness :
    (mkPoiDetail ⟨1, [], some 5, none⟩).coordinates = none :=
  (coords_require_lat_lon ⟨1, [], some 5, none⟩ rfl).1

/-- C6: when `addr:full` is present with value `x`, the details map binds
"Полный адрес" to `x` and has no "Адрес" entry; and whenever an "Адрес"
entry exists, `addr:full` was absent and at least one of `addr:street`,
`addr:housenumber` was present. -/
theorem addr_full_shadows_street (tags : Tags) (x : String)
    (h : tagGet tags "addr:full" = some x) :
    alookup (detailsOf tags) "Полный адрес" = some x ∧
    alookup (detailsOf tags) "Адрес" = none ∧
    ∀ tags2 : Tags, alookup (detailsOf tags2) "Адрес" ≠ none →
      tagGet tags2 "addr:full" = none ∧
        ((tagGet tags2 "addr:street").isSome ∨ (tagGet tags2 "addr:housenumber").isSome) := by
  refine ⟨?_, ?_, ?_⟩
  · rw [alookup_detailsOf_addrblock tags _ (by decide) (by decide) (by decide) (by decide)]
    simp [addrEntries, h, alookup]
  · rw [alookup_detailsOf_addrblock tags _ (by decide) (by decide) (by decide) (by decide)]
    simp only [addrEntries, h, alookup]
    rw [if_neg (by decide)]
  · intro tags2 hne
    rw [alookup_detailsOf_addrblock tags2 _ (by decide) (by decide) (by decide) (by decide)]
      at hne
    cases hf : tagGet tags2 "addr:full" with
    | some v =>
      exfalso
      apply hne
      simp only [addrEntries, hf, alookup]
      rw [if_neg (by decide)]
    | none =>
      cases hs : tagGet tags2 "addr:street" with
      | some s => exact ⟨rfl, Or.inl (by simp [hs])⟩
      | none =>
        cases hh : tagGet tags2 "addr:housenumber" with
        | some s2 => exact ⟨rfl, Or.inr (by simp [hh])⟩
        | none =>
          exfalso
          apply hne
          simp [addrEntries, hf, hs, hh, alookup]

/-- Witness for C6 at a tag dictionary carrying both `addr:full` and
`addr:street`. -/
theorem addr_full_shadows_street_witness :
    alookup (detailsOf [("addr:full", "X"), ("addr:street", "S")]) "Полный адрес" = some "X" ∧
    alookup (detailsOf [("addr:full", "X"), ("addr:street", "S")]) "Адрес" = none := by
  have h := addr_full_shadows_street [("addr:full", "X"), ("addr:street", "S")] "X" rfl
  exact ⟨h.1, h.2.1⟩

/-- C7: a details request with an empty id list is rejected with a 400 error
whatever the external service would answer — the handler never consults
it. -/
theorem empty_poi_ids_rejected_400 (fetch : String → List Element) :
    getPoisDetails [] fetch = Except.error ⟨400, "No POI IDs provided"⟩ :=
  rfl

/-- C8: a non-empty id list whose external query returns no elements fails
with the 404 error and no mapping, while a non-empty element list never
triggers that error — the handler returns the built mapping instead. -/
theorem empty_overpass_result_404 (poiIds : List Int) (fetch : String → List Element)
    (h : poiIds ≠ []) :
    (fetch (detailsQueryStr poiIds) = [] →
      getPoisDetails poiIds fetch = Except.error ⟨404, "POIs not found"⟩) ∧
    (fetch (detailsQueryStr poiIds) ≠ [] →
      getPoisDetails poiIds fetch = Except.ok (buildResult (fetch (detailsQueryStr poiIds)))) := by
  constructor
  · intro he
    simp [getPoisDetails, h, he]
  · intro he
    simp [getPoisDetails, h, he]

/-- Witness for C8: a one-id request whose query comes back empty fails with
404. -/
theorem empty_overpass_result_404_witness :
    getPoisDetails [1] (fun _ => []) = Except.error ⟨404, "POIs not found"⟩ :=
  (empty_overpass_result_404 [1] (fun _ => []) (by decide)).1 rfl

/-- C9: a priority tag with an empty-string value is treated as absent — an
empty `place`, `historic` or `natural` tag drops out of the resolution
chain whatever the other tags hold, so the next tag in the order takes
over (in particular an empty `place` tag followed by a non-empty
`historic` tag resolves to the historic value), and an element all of
whose present priority tags are empty-valued is skipped entirely, leaving
the pois list and the aggregation counts untouched. -/
theorem empty_priority_value_skipped (e : Element) (rest : List Element)
    (pois : List POI) (aggs : List (String × Nat)) :
    (tagGet e.tags "place" = some "" →
      poiType e.tags =
        orTruthy (tagGet e.tags "historic")
          (orTruthy (tagGet e.tags "natural") (tagGet e.tags "tourism"))) ∧
    (tagGet e.tags "historic" = some "" →
      poiType e.tags =
        orTruthy (tagGet e.tags "place")
          (orTruthy (tagGet e.tags "natural") (tagGet e.tags "tourism"))) ∧
    (tagGet e.tags "natural" = some "" →
      poiType e.tags =
        orTruthy (tagGet e.tags "place")
          (orTruthy (tagGet e.tags "historic") (tagGet e.tags "tourism"))) ∧
    (∀ w, tagGet e.tags "place" = some "" → tagGet e.tags "historic" = some w →
      w ≠ "" → poiType e.tags = some w) ∧
    ((∀ k ∈ (["place", "historic", "natural", "tourism"] : List String),
        tagGet e.tags k = none ∨ tagGet e.tags k = some "") →
      projectAux (e :: rest) pois aggs = projectAux rest pois aggs) := by
  have hskip : ∀ b, orTruthy (some "") b = b := fun b => by simp [orTruthy]
  refine ⟨?_, ?_, ?_, ?_, ?_⟩
  · intro h
    simp [poiType, h, hskip]
  · intro h
    simp [poiType, h, hskip]
  · intro h
    simp [poiType, h, hskip]
  · intro w h1 h2 h3
    simp [poiType, h1, h2, hskip, orTruthy, h3]
  · intro hall
    have hp := hall "place" (by simp)
    have hh := hall "historic" (by simp)
    have hn := hall "natural" (by simp)
    have ht := hall "tourism" (by simp)
    rcases hp with hp | hp <;> rcases hh with hh | hh <;> rcases hn with hn | hn <;>
      rcases ht with ht | ht <;>
      simp [projectAux, poiType, orTruthy, hp, hh, hn, ht]

/-- Witness for C9: an empty `place` tag falls through to a non-empty
`historic` tag, which wins; and an element whose only priority tag is an
empty-valued `historic` tag is dropped by the projector. -/
theorem empty_priority_value_skipped_witness :
    poiType [("place", ""), ("historic", "fort")] = some "fort" ∧
    projectAux [⟨1, [("historic", "")], none, none⟩] [] [] = projectAux [] [] [] := by
  constructor
  · exact (empty_priority_value_skipped
      ⟨1, [("place", ""), ("historic", "fort")], none, none⟩ [] [] []).2.2.2.1
      "fort" rfl rfl (by decide)
  · exact (empty_priority_value_skipped
      ⟨1, [("historic", "")], none, none⟩ [] [] []).2.2.2.2 (by decide)

/-- C10: whenever the details handler returns a mapping, the entry at key `k`
is the detail built from the last returned element whose id is `k` (so
duplicate ids keep only the last element), and every stored detail's id
field equals its key. -/
theorem details_map_keyed_by_last_id (poiIds : List Int) (fetch : String → List Element)
    (r : List (Int × PoiDetail)) (h : getPoisDetails poiIds fetch = Except.ok r) :
    (∀ k, alookup r k = (lastWithId (fetch (detailsQueryStr poiIds)) k).map mkPoiDetail) ∧
    (∀ k v, alookup r k = some v → v.id = k) := by
  have hr : r = buildResult (fetch (detailsQueryStr poiIds)) := by
    by_cases h1 : poiIds = []
    · simp [getPoisDetails, h1] at h
    · by_cases h2 : fetch (detailsQueryStr poiIds) = []
      · simp [getPoisDetails, h1, h2] at h
      · simp [getPoisDetails, h1, h2] at h
        exact h.symm
  subst hr
  constructor
  · intro k
    exact alookup_buildResult _ k
  · intro k v hv
    rw [alookup_buildResult] at hv
    cases hl : lastWithId (fetch (detailsQueryStr poiIds)) k with
    | none =>
      rw [hl] at hv
      simp at hv
    | some e =>
      rw [hl] at hv
      simp only [Option.map_some'] at hv
      injection hv with hv2
      subst hv2
      exact lastWithId_id _ k e hl

/-- Witness for C10: two returned elements share id 1 and the mapping keeps
the detail built from the second. -/
theorem details_map_keyed_by_last_id_witness :
    alookup
        (buildResult [⟨1, [("name", "A")], none, none⟩, ⟨1, [("name", "B")], none, none⟩])
        1 =
      some (mkPoiDetail ⟨1, [("name", "B")], none, none⟩) := by
  have h := details_map_keyed_by_last_id [1]
    (fun _ => [⟨1, [("name", "A")], none, none⟩, ⟨1, [("name", "B")], none, none⟩])
    (buildResult [⟨1, [("name", "A")], none, none⟩, ⟨1, [("name", "B")], none, none⟩])
    rfl
  rw [h.1 1]
  rfl

end S7
